import Mathlib

/-!
Shallow embedding of the GeoGrid geometric-construction puzzle engine.

Sources embedded here:
  * src/types.ts        : the data model (LineType, Point, Segment, LevelConfig).
  * src/geometryUtils.ts: checkConstraint, getIntersection, pointsEqual, segmentsEqual.
  * src/App.tsx         : the play-mode engine state (history, undo/redo/commit,
                          resetLevel, the goal-evaluation effect, the
                          allDiscoverablePoints memo, and the commit shapes of
                          handleMouseUp).
  * src/unnamed/part_000 (LevelEditor): the zero-length-rejection guard of its
                          handleMouseUp.

Numbers are embedded as exact rationals.  JavaScript numbers are IEEE doubles;
every constant in the source (grid bounds, the 1e-4 epsilon) and every level
coordinate is exactly representable, and the claims under study are about the
algebraic structure of the predicates, so `Rat` is used as the number type and
all comparisons are exact.
-/

namespace GeoGrid

/-- src/geometryUtils.ts line 4: `const EPSILON = 0.0001`. -/
def EPSILON : ℚ := 1 / 10000

/-- src/geometryUtils.ts line 5: `const GRID_MIN = 0`. -/
def GRID_MIN : ℚ := 0

/-- src/geometryUtils.ts line 6: `const GRID_MAX = 6`. -/
def GRID_MAX : ℚ := 6

/-- src/App.tsx line 8: `const GRID_SIZE = 7`. -/
def GRID_SIZE : Nat := 7

/-- src/types.ts: `enum LineType { SEGMENT, RAY, LINE }`. -/
inductive LineType where
  | SEGMENT
  | RAY
  | LINE
deriving DecidableEq, Repr

/-- A bare coordinate pair `{x, y}`, the structural type used by goal points
and by both arguments of `pointsEqual` in the source. -/
structure XY where
  x : ℚ
  y : ℚ
deriving DecidableEq, Repr

/-- src/types.ts `Point`.  The optional `isIntersection`/`isInitial` booleans
are embedded as `Bool` with `false` standing for the absent (falsy) value. -/
structure Point where
  x : ℚ
  y : ℚ
  id : String
  isIntersection : Bool := false
  isInitial : Bool := false
  label : Option String := none
deriving DecidableEq, Repr

/-- The coordinate pair of a `Point`. -/
def Point.xy (p : Point) : XY := ⟨p.x, p.y⟩

/-- src/types.ts `Segment`.  `type` is optional in the source; an absent type
is treated as `SEGMENT` at every use site. -/
structure Segment where
  p1 : Point
  p2 : Point
  id : String
  isInitial : Bool := false
  type : Option LineType := none
deriving DecidableEq, Repr

/-- The effective line type of a segment: `s.type || LineType.SEGMENT`. -/
def Segment.effType (s : Segment) : LineType := s.type.getD LineType.SEGMENT

/-- A structural segment `{p1: {x,y}, p2: {x,y}, type?}` as used for goal
segments and for the second argument of `segmentsEqual`. -/
structure RawSegment where
  p1 : XY
  p2 : XY
  type : Option LineType := none
deriving DecidableEq, Repr

/-- The effective line type of a raw segment. -/
def RawSegment.effType (s : RawSegment) : LineType := s.type.getD LineType.SEGMENT

/-- src/geometryUtils.ts lines 53-55: `pointsEqual`. -/
def pointsEqual (p1 p2 : XY) : Bool :=
  |p1.x - p2.x| < EPSILON && |p1.y - p2.y| < EPSILON

/-- src/geometryUtils.ts lines 8-19: `checkConstraint(t, type)`.  The `default`
branch of the source switch is unreachable for the three-valued enum and
coincides with the SEGMENT branch. -/
def checkConstraint (t : ℚ) (type : LineType) : Bool :=
  match type with
  | .SEGMENT => -EPSILON ≤ t && t ≤ 1 + EPSILON
  | .RAY => -EPSILON ≤ t
  | .LINE => true

/-- src/geometryUtils.ts lines 21-51: `getIntersection(s1, s2)`.  The id of a
returned point is `int-${Math.random()}` in the source; the id carries no
semantic weight (spec section 3) and is embedded as the fixed string
`int-?`. -/
def getIntersection (s1 s2 : Segment) : Option Point :=
  let x1 := s1.p1.x; let y1 := s1.p1.y
  let x2 := s1.p2.x; let y2 := s1.p2.y
  let x3 := s2.p1.x; let y3 := s2.p1.y
  let x4 := s2.p2.x; let y4 := s2.p2.y
  let denom := (y4 - y3) * (x2 - x1) - (x4 - x3) * (y2 - y1)
  if |denom| < EPSILON then none
  else
    let t := ((x4 - x3) * (y1 - y3) - (y4 - y3) * (x1 - x3)) / denom
    let u := ((x2 - x1) * (y1 - y3) - (y2 - y1) * (x1 - x3)) / denom
    if checkConstraint t s1.effType && checkConstraint u s2.effType then
      let ix := x1 + t * (x2 - x1)
      let iy := y1 + t * (y2 - y1)
      if GRID_MIN - EPSILON ≤ ix && ix ≤ GRID_MAX + EPSILON &&
         (GRID_MIN - EPSILON ≤ iy && iy ≤ GRID_MAX + EPSILON) then
        some { x := ix, y := iy, id := "int-?", isIntersection := true }
      else none
    else none

/-- The ray-direction test of src/geometryUtils.ts lines 72-78.  The source
computes `dot = (v1.x*v2.x + v1.y*v2.y) / (mag1 * mag2)` with
`mag_i = sqrt(v_i.x^2 + v_i.y^2)` and tests `|dot - 1| < EPSILON`.  Over exact
reals this is equivalent to the square-root-free test used here: writing
`d = v1.v2` and `q = (v1.v1)*(v2.v2)`, Cauchy-Schwarz gives `d/sqrt q <= 1`,
so for `q > 0` the test `|d/sqrt q - 1| < EPSILON` holds iff
`d/sqrt q > 1 - EPSILON`, iff `0 < d` and `d^2 > (1-EPSILON)^2 * q`; and for
`q = 0` the division of the source yields NaN, every comparison with which is
false, matching `0 < d` failing at `d = 0`. -/
def rayDirMatch (v1 v2 : XY) : Bool :=
  let d := v1.x * v2.x + v1.y * v2.y
  let q := (v1.x ^ 2 + v1.y ^ 2) * (v2.x ^ 2 + v2.y ^ 2)
  0 < d && (1 - EPSILON) ^ 2 * q < d ^ 2

/-- src/geometryUtils.ts lines 57-87: `segmentsEqual(s1, s2)`.  The ray branch
uses `rayDirMatch`, the square-root-free equivalent of the normalized-dot test
of the source (see `rayDirMatch`). -/
def segmentsEqual (s1 : Segment) (s2 : RawSegment) : Bool :=
  if s1.effType ≠ s2.effType then false
  else if s1.effType = LineType.SEGMENT then
    (pointsEqual s1.p1.xy s2.p1 && pointsEqual s1.p2.xy s2.p2) ||
    (pointsEqual s1.p1.xy s2.p2 && pointsEqual s1.p2.xy s2.p1)
  else if s1.effType = LineType.RAY then
    if !pointsEqual s1.p1.xy s2.p1 then false
    else
      rayDirMatch ⟨s1.p2.x - s1.p1.x, s1.p2.y - s1.p1.y⟩
        ⟨s2.p2.x - s2.p1.x, s2.p2.y - s2.p1.y⟩
  else
    let crossProduct :=
      (s1.p2.x - s1.p1.x) * (s2.p2.y - s2.p1.y) -
      (s1.p2.y - s1.p1.y) * (s2.p2.x - s2.p1.x)
    if |crossProduct| > EPSILON then false
    else
      let dist :=
        (s1.p2.x - s1.p1.x) * (s2.p1.y - s1.p1.y) -
        (s1.p2.y - s1.p1.y) * (s2.p1.x - s1.p1.x)
      |dist| < EPSILON

/-- src/types.ts `LevelConfig.initial.points` entries: `{x, y, label?}`. -/
structure RawPoint where
  x : ℚ
  y : ℚ
  label : Option String := none
deriving DecidableEq, Repr

/-- The coordinate pair of a raw point. -/
def RawPoint.xy (p : RawPoint) : XY := ⟨p.x, p.y⟩

/-- src/types.ts `LevelConfig.initial`: both lists are optional. -/
structure InitialSpec where
  points : Option (List RawPoint) := none
  segments : Option (List RawSegment) := none
deriving DecidableEq, Repr

/-- src/types.ts `LevelConfig.goals`: both lists are optional.  An absent list
and a present empty list are distinct values, exactly as in the source, where
the distinction is observable through JavaScript truthiness. -/
structure GoalSpec where
  points : Option (List XY) := none
  segments : Option (List RawSegment) := none
deriving DecidableEq, Repr

/-- src/types.ts `LevelConfig`, restricted to the fields the engine core
reads: the default drawing tool, the initial configuration and the goals.
`id`, `title` and `description` feed only the level-select UI and the
cleared-level bookkeeping, which no engine transition reads back. -/
structure LevelConfig where
  lineType : Option LineType := none
  initial : InitialSpec := {}
  goals : GoalSpec := {}
deriving DecidableEq, Repr

/-- src/App.tsx lines 18-21: `HistoryState`, one committed snapshot. -/
structure HistoryState where
  points : List Point
  segments : List Segment
deriving DecidableEq, Repr

/-- The play-mode React state of src/App.tsx that the engine transitions
read and write: the snapshot stack with its cursor, the exposed points and
segments, and the cleared flag.  Interaction state (drag tracking) and
view/navigation state are rendering concerns outside the claims. -/
structure AppState where
  history : List HistoryState
  historyIndex : Nat
  visiblePoints : List Point
  segments : List Segment
  isLevelCleared : Bool
deriving DecidableEq, Repr

/-- The body of the goal-evaluation effect, src/App.tsx lines 178-180: every
goal point is matched by a visible point, every goal segment by a constructed
segment, and the goal is truthy-non-empty.  In JavaScript an absent list is
falsy but a present empty array is truthy, so `!goals.points` is false for an
empty list (whose `every` is vacuously true) and `(goals.points ||
goals.segments)` holds whenever either field is present, even empty. -/
def isClearedCheck (G : GoalSpec) (visiblePoints : List Point)
    (segments : List Segment) : Bool :=
  let pointsCleared :=
    match G.points with
    | none => true
    | some gps => gps.all fun gp => visiblePoints.any fun vp => pointsEqual vp.xy gp
  let segmentsCleared :=
    match G.segments with
    | none => true
    | some gss => gss.all fun gs => segments.any fun sg => segmentsEqual sg gs
  pointsCleared && segmentsCleared && (G.points.isSome || G.segments.isSome)

/-- src/App.tsx lines 176-184: the goal-evaluation `useEffect`.  It runs after
every state change; when the level is already cleared it returns early, and
otherwise it sets the cleared flag iff `isClearedCheck` passes.  (The effect
also appends the level id to the cleared-level list for the level-select
screen; no engine transition reads that list, so it is not part of the
state.) -/
def evalGoal (G : GoalSpec) (s : AppState) : AppState :=
  if s.isLevelCleared then s
  else if isClearedCheck G s.visiblePoints s.segments then
    { s with isLevelCleared := true }
  else s

/-- src/App.tsx lines 72-81: `commitToHistory(newPoints, newSegments)`,
before the goal-evaluation effect runs. -/
def commitRaw (newPoints : List Point) (newSegments : List Segment)
    (s : AppState) : AppState :=
  { history := s.history.take (s.historyIndex + 1) ++ [⟨newPoints, newSegments⟩],
    historyIndex := s.historyIndex + 1,
    visiblePoints := newPoints,
    segments := newSegments,
    isLevelCleared := s.isLevelCleared }

/-- src/App.tsx lines 118-127: `undo()`, before the goal-evaluation effect
runs.  The source indexes `history[historyIndex - 1]`, which exists whenever
the history invariant holds; out of the invariant the embedding reads an
empty snapshot where the source would read `undefined`. -/
def undoRaw (s : AppState) : AppState :=
  if 0 < s.historyIndex then
    let st := s.history.getD (s.historyIndex - 1) ⟨[], []⟩
    { s with historyIndex := s.historyIndex - 1,
             visiblePoints := st.points,
             segments := st.segments,
             isLevelCleared := false }
  else s

/-- src/App.tsx lines 129-137: `redo()`, before the goal-evaluation effect
runs. -/
def redoRaw (s : AppState) : AppState :=
  if s.historyIndex < s.history.length - 1 then
    let st := s.history.getD (s.historyIndex + 1) ⟨[], []⟩
    { s with historyIndex := s.historyIndex + 1,
             visiblePoints := st.points,
             segments := st.segments }
  else s

/-- A full engine operation is the raw state update followed by the
goal-evaluation effect, which React runs after every committed render. -/
def commitOp (G : GoalSpec) (newPoints : List Point) (newSegments : List Segment)
    (s : AppState) : AppState :=
  evalGoal G (commitRaw newPoints newSegments s)

/-- `undo` followed by the goal-evaluation effect. -/
def undoOp (G : GoalSpec) (s : AppState) : AppState :=
  evalGoal G (undoRaw s)

/-- `redo` followed by the goal-evaluation effect. -/
def redoOp (G : GoalSpec) (s : AppState) : AppState :=
  evalGoal G (redoRaw s)

/-- src/App.tsx lines 86-92: the initial points of `resetLevel`. -/
def initPoints (ps : List RawPoint) : List Point :=
  ps.mapIdx fun i p =>
    { x := p.x, y := p.y, id := "init-p-" ++ toString i,
      isInitial := true, label := p.label }

/-- src/App.tsx lines 94-100: the initial segments of `resetLevel`. -/
def initSegments (ss : List RawSegment) : List Segment :=
  ss.mapIdx fun i sg =>
    { p1 := { x := sg.p1.x, y := sg.p1.y, id := "init-s-p1-" ++ toString i },
      p2 := { x := sg.p2.x, y := sg.p2.y, id := "init-s-p2-" ++ toString i },
      id := "init-s-" ++ toString i,
      isInitial := true,
      type := some (sg.type.getD LineType.SEGMENT) }

/-- The snapshot that `resetLevel` installs at index 0: the as-authored
initial configuration of the level with synthesized ids. -/
def initialSnapshot (L : LevelConfig) : HistoryState :=
  ⟨initPoints (L.initial.points.getD []), initSegments (L.initial.segments.getD [])⟩

/-- src/App.tsx lines 83-110: `resetLevel()`, followed by the goal-evaluation
effect (which may clear immediately if the initial snapshot already satisfies
the goals). -/
def resetState (L : LevelConfig) : AppState :=
  evalGoal L.goals
    { history := [initialSnapshot L],
      historyIndex := 0,
      visiblePoints := (initialSnapshot L).points,
      segments := (initialSnapshot L).segments,
      isLevelCleared := false }

/-- The bounds test of `addPoint` (src/App.tsx line 142): the candidate is
dropped when it falls outside `[-EPSILON, GRID_SIZE - 1 + EPSILON]` on either
axis. -/
def inGridBounds (x y : ℚ) : Bool :=
  !(x < -EPSILON || x > (GRID_SIZE : ℚ) - 1 + EPSILON ||
    y < -EPSILON || y > (GRID_SIZE : ℚ) - 1 + EPSILON)

/-- src/App.tsx lines 141-147: the `addPoint` closure of the
`allDiscoverablePoints` memo.  Out-of-bounds candidates are dropped; a
candidate `pointsEqual` to an already collected point is dropped; otherwise it
is appended with id `potential-<source>-<length>` and `isIntersection`
set. -/
def addPoint (acc : List Point) (x y : ℚ) (src : String) : List Point :=
  if !inGridBounds x y then acc
  else if acc.any fun q => pointsEqual q.xy ⟨x, y⟩ then acc
  else acc ++ [{ x := x, y := y,
                 id := "potential-" ++ src ++ "-" ++ toString acc.length,
                 isIntersection := true }]

/-- src/App.tsx line 148: the double loop seeding every integer grid vertex. -/
def gridSeed : List Point :=
  (List.range GRID_SIZE).foldl
    (fun acc (x : ℕ) =>
      (List.range GRID_SIZE).foldl
        (fun acc2 (y : ℕ) => addPoint acc2 (x : ℚ) (y : ℚ) "grid") acc)
    []

/-- src/App.tsx lines 150-153: for one segment, the inner loop over all
later segments, adding every pairwise intersection. -/
def interPhase (s : Segment) (later : List Segment) (acc : List Point) : List Point :=
  later.foldl
    (fun a s2 =>
      match getIntersection s s2 with
      | some crossing => addPoint a crossing.x crossing.y "seg-seg"
      | none => a)
    acc

/-- The inline parameter-validity ternary of src/App.tsx lines 161 and 168,
textually identical in both gridline loops:
`type === SEGMENT ? (t >= -EPSILON && t <= 1+EPSILON) : (type === RAY ? t >= -EPSILON : true)`. -/
def crossingValid (type : LineType) (t : ℚ) : Bool :=
  if type = LineType.SEGMENT then -EPSILON ≤ t && t ≤ 1 + EPSILON
  else if type = LineType.RAY then -EPSILON ≤ t
  else true

/-- src/App.tsx lines 158-164: crossings of one segment with the vertical
gridlines `x = k`. -/
def gridVPhase (s : Segment) (acc : List Point) : List Point :=
  let dx := s.p2.x - s.p1.x
  let dy := s.p2.y - s.p1.y
  (List.range GRID_SIZE).foldl
    (fun a (k : ℕ) =>
      if |dx| > EPSILON then
        let t := ((k : ℚ) - s.p1.x) / dx
        if crossingValid s.effType t then addPoint a (k : ℚ) (s.p1.y + t * dy) "seg-grid-v"
        else a
      else a)
    acc

/-- src/App.tsx lines 165-171: crossings of one segment with the horizontal
gridlines `y = k`. -/
def gridHPhase (s : Segment) (acc : List Point) : List Point :=
  let dx := s.p2.x - s.p1.x
  let dy := s.p2.y - s.p1.y
  (List.range GRID_SIZE).foldl
    (fun a (k : ℕ) =>
      if |dy| > EPSILON then
        let t := ((k : ℚ) - s.p1.y) / dy
        if crossingValid s.effType t then addPoint a (s.p1.x + t * dx) (k : ℚ) "seg-grid-h"
        else a
      else a)
    acc

/-- The `segments.forEach((s, idx) => ...)` walk of src/App.tsx lines
149-172.  The inner pair loop runs over indices `idx+1 ..`, that is, over the
suffix after the current segment, so the walk is the structural recursion over
suffixes embedded here: each segment is processed against the rest of its
suffix (pair intersections, then vertical, then horizontal crossings). -/
def discoverLoop : List Segment → List Point → List Point
  | [], acc => acc
  | s :: rest, acc => discoverLoop rest (gridHPhase s (gridVPhase s (interPhase s rest acc)))

/-- src/App.tsx lines 139-174: the `allDiscoverablePoints` memo, a pure
function of the current segments. -/
def allDiscoverablePoints (segments : List Segment) : List Point :=
  discoverLoop segments gridSeed

/-- One user-interface transition of the play screen, src/App.tsx.
`drawLine` and `revealPoint` are the two commit shapes of `handleMouseUp`
(lines 230-253): both require the level not to be cleared (`handleMouseDown`
line 207 refuses to start an interaction once cleared, so `dragStartPoint` is
never set afterwards), and both endpoints come from `findNearestPoint`, which
returns an element of `visiblePoints ++ allDiscoverablePoints` (lines
195-204).  The fresh ids minted from `Date.now()` are arbitrary strings
here. -/
inductive UIStep (L : LevelConfig) : AppState → AppState → Prop
  | drawLine (s : AppState) (startP endP : Point) (idS idE idSeg : String)
      (hcl : s.isLevelCleared = false)
      (hstart : startP ∈ s.visiblePoints ∨ startP ∈ allDiscoverablePoints s.segments)
      (hend : endP ∈ s.visiblePoints ∨ endP ∈ allDiscoverablePoints s.segments)
      (hne : pointsEqual startP.xy endP.xy = false)
      (hdup : s.segments.any (fun sg => segmentsEqual sg
        ⟨startP.xy, endP.xy, some (L.lineType.getD LineType.SEGMENT)⟩) = false) :
      UIStep L s (commitOp L.goals
        (let np0 := s.visiblePoints
         let np1 := if np0.any fun vp => pointsEqual vp.xy startP.xy then np0
                    else np0 ++ [{ startP with id := idS, isIntersection := true }]
         if np1.any fun vp => pointsEqual vp.xy endP.xy then np1
         else np1 ++ [{ endP with id := idE, isIntersection := true }])
        (s.segments ++ [{ p1 := startP, p2 := endP, id := idSeg,
                          type := some (L.lineType.getD LineType.SEGMENT) }])
        s)
  | revealPoint (s : AppState) (p : Point) (idP : String)
      (hcl : s.isLevelCleared = false)
      (hp : p ∈ s.visiblePoints ∨ p ∈ allDiscoverablePoints s.segments)
      (hnew : s.visiblePoints.any (fun vp => pointsEqual vp.xy p.xy) = false) :
      UIStep L s (commitOp L.goals
        (s.visiblePoints ++ [{ p with id := idP, isIntersection := true }])
        s.segments s)
  | undo (s : AppState) : UIStep L s (undoOp L.goals s)
  | redo (s : AppState) : UIStep L s (redoOp L.goals s)
  | reset (s : AppState) : UIStep L s (resetState L)

/-- Engine states reachable on the play screen: entering the level runs
`resetLevel` (src/App.tsx lines 112-116), after which the user interface
steps of `UIStep` apply. -/
inductive UIReachable (L : LevelConfig) : AppState → Prop
  | init : UIReachable L (resetState L)
  | step {s s' : AppState} : UIReachable L s → UIStep L s s' → UIReachable L s'

/-- A transition of the history component under an arbitrary commit: the
specification of section 4.3 constrains `commit/undo/redo/reset` for every
committed snapshot, so this relation leaves the commit payload free. -/
inductive GenStep (L : LevelConfig) : AppState → AppState → Prop
  | commit (s : AppState) (newPoints : List Point) (newSegments : List Segment) :
      GenStep L s (commitOp L.goals newPoints newSegments s)
  | undo (s : AppState) : GenStep L s (undoOp L.goals s)
  | redo (s : AppState) : GenStep L s (redoOp L.goals s)
  | reset (s : AppState) : GenStep L s (resetState L)

/-- States reachable from level initialization under arbitrary commits. -/
inductive GenReachable (L : LevelConfig) : AppState → Prop
  | init : GenReachable L (resetState L)
  | step {s s' : AppState} : GenReachable L s → GenStep L s s' → GenReachable L s'

/-- The determinant of the 2-by-2 system solved by `getIntersection`
(src/geometryUtils.ts line 27), named for the statements below. -/
def interDenom (s1 s2 : Segment) : ℚ :=
  (s2.p2.y - s2.p1.y) * (s1.p2.x - s1.p1.x) - (s2.p2.x - s2.p1.x) * (s1.p2.y - s1.p1.y)

/-- The parameter along `s1` solved by `getIntersection` (line 30). -/
def interT (s1 s2 : Segment) : ℚ :=
  ((s2.p2.x - s2.p1.x) * (s1.p1.y - s2.p1.y) - (s2.p2.y - s2.p1.y) * (s1.p1.x - s2.p1.x)) /
    interDenom s1 s2

/-- The parameter along `s2` solved by `getIntersection` (line 31). -/
def interU (s1 s2 : Segment) : ℚ :=
  ((s1.p2.x - s1.p1.x) * (s1.p1.y - s2.p1.y) - (s1.p2.y - s1.p1.y) * (s1.p1.x - s2.p1.x)) /
    interDenom s1 s2

/-- The grid-boundary acceptance test of `getIntersection`
(src/geometryUtils.ts lines 39-40). -/
def inIntersectionRange (ix iy : ℚ) : Bool :=
  GRID_MIN - EPSILON ≤ ix && ix ≤ GRID_MAX + EPSILON &&
    (GRID_MIN - EPSILON ≤ iy && iy ≤ GRID_MAX + EPSILON)

/-- The geometric content of a segment: endpoint coordinates and type,
without the semantically irrelevant ids and flags. -/
def stripSeg (s : Segment) : XY × XY × Option LineType :=
  (s.p1.xy, s.p2.xy, s.type)

/-- A segment has two distinct endpoints under epsilon-equality. -/
def segNondegen (sg : Segment) : Bool := !pointsEqual sg.p1.xy sg.p2.xy

/-- Every segment of a snapshot is non-degenerate. -/
def snapshotNondegen (h : HistoryState) : Bool := h.segments.all segNondegen

/-- Every segment of every committed snapshot, and of the exposed segment
list, is non-degenerate. -/
def stateNondegen (s : AppState) : Bool :=
  s.history.all snapshotNondegen && s.segments.all segNondegen

/-!  Concrete fixtures used to instantiate the theorems below. -/

/-- A diagonal segment from (0,0) to (2,2). -/
def segX : Segment :=
  { p1 := ⟨0, 0, "a1", false, false, none⟩, p2 := ⟨2, 2, "a2", false, false, none⟩, id := "A" }

/-- A diagonal segment from (0,2) to (2,0); it crosses `segX` at (1,1). -/
def segY : Segment :=
  { p1 := ⟨0, 2, "b1", false, false, none⟩, p2 := ⟨2, 0, "b2", false, false, none⟩, id := "B" }

/-- A ray from (0,0) through (1,0). -/
def rayR : Segment :=
  { p1 := ⟨0, 0, "r1", false, false, none⟩, p2 := ⟨1, 0, "r2", false, false, none⟩,
    id := "R", type := some LineType.RAY }

/-- A level with no initial geometry whose goal is the single point (1,1). -/
def exLevel : LevelConfig :=
  { lineType := none, initial := ⟨some [], some []⟩, goals := ⟨some [⟨1, 1⟩], none⟩ }

/-- A level with no goals and no initial geometry. -/
def emptyLevel : LevelConfig := { lineType := none, initial := ⟨none, none⟩, goals := ⟨none, none⟩ }

/-- The grid vertex (1,1) as generated by the discoverable-point seed. -/
def exPoint : Point := ⟨1, 1, "potential-grid-8", true, false, none⟩

/-- The state of `exLevel` play after revealing the goal point (1,1): the
engine commits the revealed point and the goal-evaluation effect then sets
the cleared flag. -/
def exState1 : AppState :=
  commitOp exLevel.goals
    ((resetState exLevel).visiblePoints ++ [{ exPoint with id := "r1", isIntersection := true }])
    (resetState exLevel).segments (resetState exLevel)

/-- A cleared state of `exLevel` reached by an unconstrained commit. -/
def exStateG : AppState :=
  commitOp exLevel.goals [⟨1, 1, "g1", false, false, none⟩] [] (resetState exLevel)

/-- An interior-cursor state of `emptyLevel`: two commits then one undo
leave the cursor at index 1 of a three-snapshot history. -/
def exStateMid : AppState :=
  undoOp emptyLevel.goals
    (commitOp emptyLevel.goals [⟨2, 2, "m2", false, false, none⟩] []
      (commitOp emptyLevel.goals [⟨1, 1, "m1", false, false, none⟩] []
        (resetState emptyLevel)))

/-- A four-snapshot history with the cursor at index 2, the scenario of the
history-truncation test. -/
def exStateFour : AppState :=
  { history := [⟨[⟨0, 0, "h0", false, false, none⟩], []⟩,
                ⟨[⟨1, 0, "h1", false, false, none⟩], []⟩,
                ⟨[⟨2, 0, "h2", false, false, none⟩], []⟩,
                ⟨[⟨3, 0, "h3", false, false, none⟩], []⟩],
    historyIndex := 2,
    visiblePoints := [⟨2, 0, "h2", false, false, none⟩],
    segments := [],
    isLevelCleared := false }

/-- A goal-free level whose initial configuration is the single segment
from (0,0) to (1,0). -/
def segLevel : LevelConfig :=
  { lineType := none,
    initial := ⟨none, some [⟨⟨0, 0⟩, ⟨1, 0⟩, none⟩]⟩,
    goals := ⟨none, none⟩ }

/-- The state of `segLevel` play after drawing a segment from the grid
vertex (0,0) to the grid vertex (2,0). -/
def c10State : AppState :=
  commitOp segLevel.goals
    (let np0 := (resetState segLevel).visiblePoints
     let np1 := if np0.any fun vp => pointsEqual vp.xy (⟨0, 0, "potential-grid-0", true, false, none⟩ : Point).xy then np0
                else np0 ++ [{ (⟨0, 0, "potential-grid-0", true, false, none⟩ : Point) with id := "rs", isIntersection := true }]
     if np1.any fun vp => pointsEqual vp.xy (⟨2, 0, "potential-grid-14", true, false, none⟩ : Point).xy then np1
     else np1 ++ [{ (⟨2, 0, "potential-grid-14", true, false, none⟩ : Point) with id := "re", isIntersection := true }])
    ((resetState segLevel).segments ++
      [{ p1 := ⟨0, 0, "potential-grid-0", true, false, none⟩,
         p2 := ⟨2, 0, "potential-grid-14", true, false, none⟩, id := "rseg",
         type := some (segLevel.lineType.getD LineType.SEGMENT) }])
    (resetState segLevel)

/-- The engine invariant on play states: the history is non-empty, the
cursor indexes into it, slot 0 holds the as-authored initial snapshot, the
exposed points and segments are exactly the snapshot under the cursor, and
the goal-evaluation effect has been applied. -/
def Inv (L : LevelConfig) (s : AppState) : Prop :=
  s.history ≠ [] ∧
  s.historyIndex < s.history.length ∧
  s.history.getD 0 ⟨[], []⟩ = initialSnapshot L ∧
  s.visiblePoints = (s.history.getD s.historyIndex ⟨[], []⟩).points ∧
  s.segments = (s.history.getD s.historyIndex ⟨[], []⟩).segments ∧
  evalGoal L.goals s = s

/-!  Core rational arithmetic is marked irreducible upstream; re-enabling
unfolding lets concrete states of the engine be evaluated by `decide`. -/

set_option allowUnsafeReducibility true in
attribute [semireducible] Rat.sub Rat.add Rat.mul Rat.div Rat.neg Rat.inv

/-- `pointsEqual` is reflexive: the coordinate differences vanish and the
epsilon is positive. -/
theorem pointsEqual_refl (p : XY) : pointsEqual p p = true := by
  simp [pointsEqual, EPSILON]

/-- `isClearedCheck` in terms of membership: every goal point has an
epsilon-equal visible point, every goal segment a matching constructed
segment, and at least one goal field is present. -/
theorem isClearedCheck_iff (G : GoalSpec) (ps : List Point) (ss : List Segment) :
    isClearedCheck G ps ss = true ↔
      (∀ gp ∈ G.points.getD [], ∃ vp ∈ ps, pointsEqual vp.xy gp = true) ∧
      (∀ gs ∈ G.segments.getD [], ∃ sg ∈ ss, segmentsEqual sg gs = true) ∧
      (G.points.isSome ∨ G.segments.isSome) := by
  unfold isClearedCheck
  cases hps : G.points <;> cases hss : G.segments <;>
    simp [List.all_eq_true, List.any_eq_true]

/-- The goal-evaluation effect leaves the cleared flag set and raises it
exactly when the check passes. -/
theorem evalGoal_isLevelCleared (G : GoalSpec) (s : AppState) :
    (evalGoal G s).isLevelCleared =
      (s.isLevelCleared || isClearedCheck G s.visiblePoints s.segments) := by
  unfold evalGoal
  split
  · simp_all
  · split <;> simp_all

/-- The goal-evaluation effect leaves the history untouched. -/
@[simp]
theorem evalGoal_history (G : GoalSpec) (s : AppState) :
    (evalGoal G s).history = s.history := by
  unfold evalGoal
  split
  · rfl
  · split <;> rfl

/-- The goal-evaluation effect leaves the cursor untouched. -/
@[simp]
theorem evalGoal_historyIndex (G : GoalSpec) (s : AppState) :
    (evalGoal G s).historyIndex = s.historyIndex := by
  unfold evalGoal
  split
  · rfl
  · split <;> rfl

/-- The goal-evaluation effect leaves the exposed points untouched. -/
@[simp]
theorem evalGoal_visiblePoints (G : GoalSpec) (s : AppState) :
    (evalGoal G s).visiblePoints = s.visiblePoints := by
  unfold evalGoal
  split
  · rfl
  · split <;> rfl

/-- The goal-evaluation effect leaves the segments untouched. -/
@[simp]
theorem evalGoal_segments (G : GoalSpec) (s : AppState) :
    (evalGoal G s).segments = s.segments := by
  unfold evalGoal
  split
  · rfl
  · split <;> rfl

/-- The goal-evaluation effect is idempotent. -/
theorem evalGoal_idem (G : GoalSpec) (s : AppState) :
    evalGoal G (evalGoal G s) = evalGoal G s := by
  unfold evalGoal
  split
  · simp_all
  · split <;> simp_all

/-- C1, counterexample: the claim says a goal with neither points nor lines
(missing OR EMPTY lists) never clears, but a goal whose `points` field is a
present-but-empty list is truthy in the source, so its check passes vacuously
on any snapshot, including the empty one. -/
theorem emptyListGoal_clears :
    isClearedCheck ⟨some [], none⟩ [] [] = true := by decide

/-- C1 (amended): the cleared verdict is true iff every goal point is matched
by some snapshot point under `pointsEqual`, every goal segment is matched by
some snapshot segment under `segmentsEqual`, and at least one of the two goal
fields is PRESENT (a present-but-empty list counts as non-empty, so only a
goal with both fields missing never clears); and the goal-evaluation effect
raises exactly this verdict on the not-yet-cleared state. -/
theorem goalEvaluation_characterization (G : GoalSpec) (ps : List Point)
    (ss : List Segment) (s : AppState) :
    (isClearedCheck G ps ss = true ↔
      (∀ gp ∈ G.points.getD [], ∃ vp ∈ ps, pointsEqual vp.xy gp = true) ∧
      (∀ gs ∈ G.segments.getD [], ∃ sg ∈ ss, segmentsEqual sg gs = true) ∧
      (G.points.isSome ∨ G.segments.isSome)) ∧
    isClearedCheck ⟨none, none⟩ ps ss = false ∧
    (evalGoal G s).isLevelCleared =
      (s.isLevelCleared || isClearedCheck G s.visiblePoints s.segments) := by
  refine ⟨isClearedCheck_iff G ps ss, ?_, evalGoal_isLevelCleared G s⟩
  simp [isClearedCheck]

/-- C1 witness: a one-point goal together with a snapshot holding that point
clears, through the characterization. -/
theorem goalEvaluation_characterization_witness :
    isClearedCheck ⟨some [⟨1, 1⟩], none⟩ [⟨1, 1, "p", false, false, none⟩] [] = true := by
  refine ((goalEvaluation_characterization ⟨some [⟨1, 1⟩], none⟩
    [⟨1, 1, "p", false, false, none⟩] []
    ⟨[], 0, [], [], false⟩).1).mpr ⟨?_, ?_, ?_⟩
  · intro gp hgp
    refine ⟨⟨1, 1, "p", false, false, none⟩, by simp, ?_⟩
    simp at hgp
    subst hgp
    exact pointsEqual_refl _
  · simp
  · simp

/-- C9: goal clearing is monotonic in the snapshot: a cleared check stays
cleared on any snapshot extending the points and segments. -/
theorem goalClearing_monotonic (G : GoalSpec) (ps ps' : List Point)
    (ss ss' : List Segment) (hp : ps ⊆ ps') (hs : ss ⊆ ss')
    (h : isClearedCheck G ps ss = true) : isClearedCheck G ps' ss' = true := by
  rw [isClearedCheck_iff] at h ⊢
  obtain ⟨h1, h2, h3⟩ := h
  refine ⟨?_, ?_, h3⟩
  · intro gp hgp
    obtain ⟨vp, hvp, he⟩ := h1 gp hgp
    exact ⟨vp, hp hvp, he⟩
  · intro gs hgs
    obtain ⟨sg, hsg, he⟩ := h2 gs hgs
    exact ⟨sg, hs hsg, he⟩

/-- C9 witness: a concrete cleared snapshot stays cleared after adding a
point and a segment. -/
theorem goalClearing_monotonic_witness :
    isClearedCheck ⟨some [⟨2, 3⟩], none⟩
      [⟨2, 3, "a", false, false, none⟩, ⟨0, 0, "b", false, false, none⟩]
      [⟨⟨0, 0, "c", false, false, none⟩, ⟨1, 1, "d", false, false, none⟩, "s", false, none⟩] = true := by
  refine goalClearing_monotonic ⟨some [⟨2, 3⟩], none⟩
    [⟨2, 3, "a", false, false, none⟩] _ [] _ ?_ ?_ ?_
  · intro x hx
    simp at hx
    simp [hx]
  · intro x hx
    simp at hx
  · decide

/-- C4: `getIntersection` returns none whenever the absolute determinant is
below epsilon; otherwise it returns exactly when both parameters pass their
line-type constraint and the point lies in the grid range, in which case the
returned point carries `isIntersection = true` and solves BOTH parametric
line equations. -/
theorem getIntersection_spec (s1 s2 : Segment) :
    (|interDenom s1 s2| < EPSILON → getIntersection s1 s2 = none) ∧
    (¬ |interDenom s1 s2| < EPSILON →
      ((checkConstraint (interT s1 s2) s1.effType &&
          checkConstraint (interU s1 s2) s2.effType) = true ∧
        inIntersectionRange (s1.p1.x + interT s1 s2 * (s1.p2.x - s1.p1.x))
          (s1.p1.y + interT s1 s2 * (s1.p2.y - s1.p1.y)) = true →
        getIntersection s1 s2 =
          some { x := s1.p1.x + interT s1 s2 * (s1.p2.x - s1.p1.x),
                 y := s1.p1.y + interT s1 s2 * (s1.p2.y - s1.p1.y),
                 id := "int-?", isIntersection := true } ∧
        s1.p1.x + interT s1 s2 * (s1.p2.x - s1.p1.x) =
          s2.p1.x + interU s1 s2 * (s2.p2.x - s2.p1.x) ∧
        s1.p1.y + interT s1 s2 * (s1.p2.y - s1.p1.y) =
          s2.p1.y + interU s1 s2 * (s2.p2.y - s2.p1.y)) ∧
      (¬ ((checkConstraint (interT s1 s2) s1.effType &&
            checkConstraint (interU s1 s2) s2.effType) = true ∧
          inIntersectionRange (s1.p1.x + interT s1 s2 * (s1.p2.x - s1.p1.x))
            (s1.p1.y + interT s1 s2 * (s1.p2.y - s1.p1.y)) = true) →
        getIntersection s1 s2 = none)) := by
  have hg : getIntersection s1 s2 =
      (if |interDenom s1 s2| < EPSILON then none
       else if (checkConstraint (interT s1 s2) s1.effType &&
            checkConstraint (interU s1 s2) s2.effType) = true then
         if inIntersectionRange (s1.p1.x + interT s1 s2 * (s1.p2.x - s1.p1.x))
             (s1.p1.y + interT s1 s2 * (s1.p2.y - s1.p1.y)) = true then
           some { x := s1.p1.x + interT s1 s2 * (s1.p2.x - s1.p1.x),
                  y := s1.p1.y + interT s1 s2 * (s1.p2.y - s1.p1.y),
                  id := "int-?", isIntersection := true }
         else none
       else none) := rfl
  refine ⟨?_, fun hd => ⟨?_, ?_⟩⟩
  · intro h
    rw [hg, if_pos h]
  · rintro ⟨hc, hr⟩
    have hdz : interDenom s1 s2 ≠ 0 := by
      intro h0
      rw [h0] at hd
      simp [EPSILON] at hd
    have hdz2 : (s2.p2.y - s2.p1.y) * (s1.p2.x - s1.p1.x) -
        (s2.p2.x - s2.p1.x) * (s1.p2.y - s1.p1.y) ≠ 0 := hdz
    refine ⟨?_, ?_, ?_⟩
    · rw [hg, if_neg hd, if_pos hc, if_pos hr]
    · unfold interT interU interDenom
      field_simp
      ring
    · unfold interT interU interDenom
      field_simp
      ring
  · intro hnot
    rw [hg, if_neg hd]
    rcases Decidable.em ((checkConstraint (interT s1 s2) s1.effType &&
        checkConstraint (interU s1 s2) s2.effType) = true) with hc | hc
    · rw [if_pos hc, if_neg]
      intro hr
      exact hnot ⟨hc, hr⟩
    · rw [if_neg hc]

/-- C4 witness: the crossing diagonals intersect at (1,1), through the
characterization. -/
theorem getIntersection_spec_witness :
    getIntersection segX segY = some ⟨1, 1, "int-?", true, false, none⟩ := by
  have h := ((getIntersection_spec segX segY).2 (by decide)).1 ⟨by decide, by decide⟩
  exact h.1.trans (by decide)

/-- Level initialization establishes the engine invariant. -/
theorem inv_resetState (L : LevelConfig) : Inv L (resetState L) := by
  unfold Inv resetState
  refine ⟨?_, ?_, ?_, ?_, ?_, evalGoal_idem _ _⟩ <;>
    simp [List.getD]

/-- An arbitrary commit preserves the engine invariant. -/
theorem inv_commit (L : LevelConfig) (np : List Point) (ns : List Segment)
    (s : AppState) (h : Inv L s) : Inv L (commitOp L.goals np ns s) := by
  obtain ⟨hne, hlt, h0, hv, hs, hfix⟩ := h
  have htl : (s.history.take (s.historyIndex + 1)).length = s.historyIndex + 1 :=
    List.length_take_of_le (by omega)
  unfold commitOp
  refine ⟨?_, ?_, ?_, ?_, ?_, evalGoal_idem _ _⟩ <;>
    simp only [evalGoal_history, evalGoal_historyIndex, evalGoal_visiblePoints,
      evalGoal_segments, commitRaw]
  · simp
  · simp only [List.length_append, htl, List.length_cons, List.length_nil]
    omega
  · rw [List.getD_eq_getElem?_getD, List.getElem?_append, if_pos (by omega),
      List.getElem?_take_of_lt (by omega), ← List.getD_eq_getElem?_getD]
    exact h0
  · rw [List.getD_eq_getElem?_getD, List.getElem?_append_right (by omega), htl]
    simp
  · rw [List.getD_eq_getElem?_getD, List.getElem?_append_right (by omega), htl]
    simp

/-- Undo preserves the engine invariant. -/
theorem inv_undo (L : LevelConfig) (s : AppState) (h : Inv L s) :
    Inv L (undoOp L.goals s) := by
  obtain ⟨hne, hlt, h0, hv, hs, hfix⟩ := h
  unfold undoOp undoRaw
  split_ifs with hgt
  · exact ⟨by simp [hne], by simp; omega, by simpa using h0, by simp, by simp,
      evalGoal_idem _ _⟩
  · rw [hfix]
    exact ⟨hne, hlt, h0, hv, hs, hfix⟩

/-- Redo preserves the engine invariant. -/
theorem inv_redo (L : LevelConfig) (s : AppState) (h : Inv L s) :
    Inv L (redoOp L.goals s) := by
  obtain ⟨hne, hlt, h0, hv, hs, hfix⟩ := h
  unfold redoOp redoRaw
  split_ifs with hgt
  · exact ⟨by simp [hne], by simp; omega, by simpa using h0, by simp, by simp,
      evalGoal_idem _ _⟩
  · rw [hfix]
    exact ⟨hne, hlt, h0, hv, hs, hfix⟩

/-- Every state reachable under arbitrary commits satisfies the engine
invariant. -/
theorem inv_genReachable {L : LevelConfig} {s : AppState}
    (h : GenReachable L s) : Inv L s := by
  induction h with
  | init => exact inv_resetState L
  | step _ hstep ih =>
    cases hstep with
    | commit np ns => exact inv_commit L np ns _ ih
    | undo => exact inv_undo L _ ih
    | redo => exact inv_redo L _ ih
    | reset => exact inv_resetState L

/-- Every user-interface step is one of the unconstrained history
transitions. -/
theorem uiStep_genStep {L : LevelConfig} {s s' : AppState}
    (h : UIStep L s s') : GenStep L s s' := by
  cases h with
  | drawLine startP endP idS idE idSeg hcl hstart hend hne hdup =>
    exact GenStep.commit _ _ _
  | revealPoint p idP hcl hp hnew => exact GenStep.commit _ _ _
  | undo => exact GenStep.undo _
  | redo => exact GenStep.redo _
  | reset => exact GenStep.reset _

/-- User-interface reachability implies reachability under arbitrary
commits. -/
theorem uiReachable_genReachable {L : LevelConfig} {s : AppState}
    (h : UIReachable L s) : GenReachable L s := by
  induction h with
  | init => exact GenReachable.init
  | step _ hstep ih => exact GenReachable.step ih (uiStep_genStep hstep)

/-- C7: in every reachable state the history is non-empty, the cursor is a
valid index into it, and slot 0 holds the as-authored initial snapshot of
the level. -/
theorem history_invariant (L : LevelConfig) (s : AppState)
    (h : GenReachable L s) :
    s.history ≠ [] ∧ s.historyIndex < s.history.length ∧
    s.history.getD 0 ⟨[], []⟩ = initialSnapshot L := by
  obtain ⟨h1, h2, h3, _, _, _⟩ := inv_genReachable h
  exact ⟨h1, h2, h3⟩

/-- C7 witness: the invariant at the freshly initialized empty level. -/
theorem history_invariant_witness :
    (resetState emptyLevel).history ≠ [] ∧
    (resetState emptyLevel).historyIndex < (resetState emptyLevel).history.length ∧
    (resetState emptyLevel).history.getD 0 ⟨[], []⟩ = initialSnapshot emptyLevel :=
  history_invariant emptyLevel _ GenReachable.init

/-- C8: undo is a no-op at cursor 0, redo is a no-op at the last index, and
from any interior cursor undo followed by redo restores the exposed points,
segments, cursor and history. -/
theorem undo_redo_inverse (L : LevelConfig) (s : AppState)
    (h : GenReachable L s) :
    (s.historyIndex = 0 → undoOp L.goals s = s) ∧
    (s.historyIndex = s.history.length - 1 → redoOp L.goals s = s) ∧
    (0 < s.historyIndex → s.historyIndex < s.history.length - 1 →
      (redoOp L.goals (undoOp L.goals s)).visiblePoints = s.visiblePoints ∧
      (redoOp L.goals (undoOp L.goals s)).segments = s.segments ∧
      (redoOp L.goals (undoOp L.goals s)).historyIndex = s.historyIndex ∧
      (redoOp L.goals (undoOp L.goals s)).history = s.history) := by
  obtain ⟨hne, hlt, h0, hv, hs, hfix⟩ := inv_genReachable h
  refine ⟨?_, ?_, ?_⟩
  · intro hz
    unfold undoOp undoRaw
    rw [if_neg (by omega)]
    exact hfix
  · intro hl
    unfold redoOp redoRaw
    rw [if_neg (by omega)]
    exact hfix
  · intro h1 h2
    unfold undoOp undoRaw
    rw [if_pos h1]
    unfold redoOp redoRaw
    simp only [evalGoal_history, evalGoal_historyIndex, evalGoal_visiblePoints,
      evalGoal_segments]
    rw [if_pos (by omega)]
    have hix : s.historyIndex - 1 + 1 = s.historyIndex := by omega
    refine ⟨?_, ?_, ?_, ?_⟩ <;>
      simp only [evalGoal_history, evalGoal_historyIndex, evalGoal_visiblePoints,
        evalGoal_segments, hix]
    · exact hv.symm
    · exact hs.symm

/-- C8 witness: the no-op bounds and the interior round trip at the
two-commits-then-undo state of the empty level. -/
theorem undo_redo_inverse_witness :
    (redoOp emptyLevel.goals (undoOp emptyLevel.goals exStateMid)).visiblePoints =
        exStateMid.visiblePoints ∧
    (redoOp emptyLevel.goals (undoOp emptyLevel.goals exStateMid)).segments =
        exStateMid.segments ∧
    0 < exStateMid.historyIndex ∧
    exStateMid.historyIndex < exStateMid.history.length - 1 := by
  have hr : GenReachable emptyLevel exStateMid :=
    GenReachable.step
      (GenReachable.step
        (GenReachable.step GenReachable.init
          (GenStep.commit _ [⟨1, 1, "m1", false, false, none⟩] []))
        (GenStep.commit _ [⟨2, 2, "m2", false, false, none⟩] []))
      (GenStep.undo _)
  have h := (undo_redo_inverse emptyLevel exStateMid hr).2.2 (by decide) (by decide)
  exact ⟨h.1, h.2.1, by decide, by decide⟩

/-- C2 counterexample: committing from cursor index 2 of a four-snapshot
history leaves FOUR snapshots, not the three the claim states. -/
theorem commit_leaves_four_snapshots :
    (commitOp emptyLevel.goals [] [] exStateFour).history.length = 4 ∧
    ¬ (commitOp emptyLevel.goals [] [] exStateFour).history.length = 3 := by
  decide

/-- C2 (amended): commit truncates the stack to indices `[0..cursor]`,
appends the new snapshot, and advances the cursor to the new last index (so
redo is unavailable); from cursor index 2 of a four-snapshot history this
leaves exactly FOUR snapshots, namely the old 0,1,2 and the new one. -/
theorem commit_truncates (G : GoalSpec) (np : List Point) (ns : List Segment)
    (s : AppState) (h : s.historyIndex < s.history.length) :
    (commitOp G np ns s).history = s.history.take (s.historyIndex + 1) ++ [⟨np, ns⟩] ∧
    (commitOp G np ns s).historyIndex = s.historyIndex + 1 ∧
    (commitOp G np ns s).historyIndex = (commitOp G np ns s).history.length - 1 ∧
    (∀ (h0 h1 h2 h3 : HistoryState) (pts : List Point) (sgs : List Segment) (cl : Bool),
      (commitOp G np ns ⟨[h0, h1, h2, h3], 2, pts, sgs, cl⟩).history =
          [h0, h1, h2, ⟨np, ns⟩] ∧
      (commitOp G np ns ⟨[h0, h1, h2, h3], 2, pts, sgs, cl⟩).historyIndex = 3 ∧
      (commitOp G np ns ⟨[h0, h1, h2, h3], 2, pts, sgs, cl⟩).history.length = 4) := by
  have htl : (s.history.take (s.historyIndex + 1)).length = s.historyIndex + 1 :=
    List.length_take_of_le (by omega)
  refine ⟨?_, ?_, ?_, ?_⟩
  · simp [commitOp, commitRaw]
  · simp [commitOp, commitRaw]
  · simp [commitOp, commitRaw, htl]
  · intro h0 h1 h2 h3 pts sgs cl
    refine ⟨?_, ?_, ?_⟩ <;> simp [commitOp, commitRaw, List.take]

/-- C2 witness: the four-snapshot cursor-2 state under an actual commit. -/
theorem commit_truncates_witness :
    (commitOp emptyLevel.goals [] [] exStateFour).history =
        exStateFour.history.take (exStateFour.historyIndex + 1) ++ [⟨[], []⟩] ∧
    (commitOp emptyLevel.goals [] [] exStateFour).historyIndex =
        exStateFour.historyIndex + 1 := by
  have h := commit_truncates emptyLevel.goals [] [] exStateFour (by decide)
  exact ⟨h.1, h.2.1⟩

set_option maxRecDepth 10000 in
/-- C3 counterexample: a reachable cleared state that a single undo
un-clears: on a level whose goal is the point (1,1), revealing (1,1) clears,
and undoing back to the empty initial snapshot resets the flag to false. -/
theorem cleared_not_sticky_under_undo :
    UIReachable exLevel exState1 ∧ exState1.isLevelCleared = true ∧
    (undoOp exLevel.goals exState1).isLevelCleared = false := by
  refine ⟨UIReachable.step UIReachable.init ?_, by decide, by decide⟩
  exact UIStep.revealPoint _ exPoint "r1" (by decide) (Or.inr (by decide)) (by decide)

/-- C3 (amended): in a reachable cleared state, commit and redo always leave
the cleared flag true; undo resets the flag and re-derives it, so it stays
true at cursor 0 and otherwise equals the goal check on the restored
snapshot; reset unconditionally recomputes it from the initial snapshot. -/
theorem cleared_flag_dynamics (L : LevelConfig) (s : AppState)
    (h : GenReachable L s) (hc : s.isLevelCleared = true) :
    (∀ np ns, (commitOp L.goals np ns s).isLevelCleared = true) ∧
    (redoOp L.goals s).isLevelCleared = true ∧
    (s.historyIndex = 0 → (undoOp L.goals s).isLevelCleared = true) ∧
    (0 < s.historyIndex →
      (undoOp L.goals s).isLevelCleared =
        isClearedCheck L.goals
          (s.history.getD (s.historyIndex - 1) ⟨[], []⟩).points
          (s.history.getD (s.historyIndex - 1) ⟨[], []⟩).segments) ∧
    (resetState L).isLevelCleared =
      isClearedCheck L.goals (initialSnapshot L).points (initialSnapshot L).segments := by
  obtain ⟨hne, hlt, h0, hv, hs, hfix⟩ := inv_genReachable h
  refine ⟨?_, ?_, ?_, ?_, ?_⟩
  · intro np ns
    rw [commitOp, evalGoal_isLevelCleared]
    simp [commitRaw, hc]
  · rw [redoOp, evalGoal_isLevelCleared]
    unfold redoRaw
    split <;> simp [hc]
  · intro hz
    unfold undoOp undoRaw
    rw [if_neg (by omega), hfix]
    exact hc
  · intro hgt
    unfold undoOp undoRaw
    rw [if_pos hgt, evalGoal_isLevelCleared]
    simp
  · rw [resetState, evalGoal_isLevelCleared]
    simp

/-- C3 witness: a reachable cleared state where redo keeps the flag. -/
theorem cleared_flag_dynamics_witness :
    exStateG.isLevelCleared = true ∧
    (redoOp exLevel.goals exStateG).isLevelCleared = true := by
  have hr : GenReachable exLevel exStateG :=
    GenReachable.step GenReachable.init
      (GenStep.commit _ [⟨1, 1, "g1", false, false, none⟩] [])
  exact ⟨by decide, (cleared_flag_dynamics exLevel exStateG hr (by decide)).2.1⟩

/-- C5: `segmentsEqual` is false when the effective types differ (a missing
type defaults to SEGMENT); for SEGMENT it is unordered endpoint equality; for
RAY it is origin equality together with the positive-scalar direction test,
which rejects every opposite-direction ray and accepts every
positive-scalar rescaling of a non-degenerate ray at the same origin; for
LINE it is collinearity of the directions together with the base point of
the second line lying on the first line, with no endpoint matching. -/
theorem segmentsEqual_spec (s1 : Segment) (s2 : RawSegment) :
    (s1.effType ≠ s2.effType → segmentsEqual s1 s2 = false) ∧
    (s1.effType = LineType.SEGMENT → s2.effType = LineType.SEGMENT →
      segmentsEqual s1 s2 =
        ((pointsEqual s1.p1.xy s2.p1 && pointsEqual s1.p2.xy s2.p2) ||
         (pointsEqual s1.p1.xy s2.p2 && pointsEqual s1.p2.xy s2.p1))) ∧
    (s1.effType = LineType.RAY → s2.effType = LineType.RAY →
      segmentsEqual s1 s2 =
        (pointsEqual s1.p1.xy s2.p1 &&
         rayDirMatch ⟨s1.p2.x - s1.p1.x, s1.p2.y - s1.p1.y⟩
           ⟨s2.p2.x - s2.p1.x, s2.p2.y - s2.p1.y⟩)) ∧
    (s1.effType = LineType.RAY → s2.effType = LineType.RAY →
      ∀ c : ℚ, c < 0 →
        s2.p2.x - s2.p1.x = c * (s1.p2.x - s1.p1.x) →
        s2.p2.y - s2.p1.y = c * (s1.p2.y - s1.p1.y) →
        segmentsEqual s1 s2 = false) ∧
    (s1.effType = LineType.RAY → s2.effType = LineType.RAY →
      ∀ c : ℚ, 0 < c →
        s2.p2.x - s2.p1.x = c * (s1.p2.x - s1.p1.x) →
        s2.p2.y - s2.p1.y = c * (s1.p2.y - s1.p1.y) →
        ¬(s1.p2.x - s1.p1.x = 0 ∧ s1.p2.y - s1.p1.y = 0) →
        pointsEqual s1.p1.xy s2.p1 = true →
        segmentsEqual s1 s2 = true) ∧
    (s1.effType = LineType.LINE → s2.effType = LineType.LINE →
      segmentsEqual s1 s2 =
        (|(s1.p2.x - s1.p1.x) * (s2.p2.y - s2.p1.y) -
            (s1.p2.y - s1.p1.y) * (s2.p2.x - s2.p1.x)| ≤ EPSILON &&
         |(s1.p2.x - s1.p1.x) * (s2.p1.y - s1.p1.y) -
            (s1.p2.y - s1.p1.y) * (s2.p1.x - s1.p1.x)| < EPSILON)) := by
  refine ⟨?_, ?_, ?_, ?_, ?_, ?_⟩
  · intro h
    unfold segmentsEqual
    rw [if_pos h]
  · intro h1 h2
    unfold segmentsEqual
    rw [if_neg (by rw [h1, h2]; simp), if_pos h1]
  · intro h1 h2
    unfold segmentsEqual
    rw [if_neg (by rw [h1, h2]; simp), if_neg (by rw [h1]; simp), if_pos h1]
    cases hpe : pointsEqual s1.p1.xy s2.p1 <;> simp [hpe]
  · intro h1 h2 c hc hdx hdy
    unfold segmentsEqual
    rw [if_neg (by rw [h1, h2]; simp), if_neg (by rw [h1]; simp), if_pos h1]
    have hmatch : rayDirMatch ⟨s1.p2.x - s1.p1.x, s1.p2.y - s1.p1.y⟩
        ⟨s2.p2.x - s2.p1.x, s2.p2.y - s2.p1.y⟩ = false := by
      unfold rayDirMatch
      simp only [hdx, hdy, Bool.and_eq_false_iff, decide_eq_false_iff_not, not_lt]
      left
      nlinarith [sq_nonneg (s1.p2.x - s1.p1.x), sq_nonneg (s1.p2.y - s1.p1.y)]
    split
    · rfl
    · exact hmatch
  · intro h1 h2 c hc hdx hdy hnz hpe
    unfold segmentsEqual
    rw [if_neg (by rw [h1, h2]; simp), if_neg (by rw [h1]; simp), if_pos h1]
    rw [if_neg (by simp [hpe])]
    unfold rayDirMatch
    have hq : 0 < (s1.p2.x - s1.p1.x) ^ 2 + (s1.p2.y - s1.p1.y) ^ 2 := by
      rcases not_and_or.mp hnz with h | h
      · positivity
      · positivity
    simp only [hdx, hdy, Bool.and_eq_true, decide_eq_true_eq]
    have key : ((1 : ℚ) - EPSILON) ^ 2 < 1 := by rw [EPSILON]; norm_num
    have hk : 0 < c ^ 2 * ((s1.p2.x - s1.p1.x) ^ 2 + (s1.p2.y - s1.p1.y) ^ 2) ^ 2 := by
      positivity
    constructor
    · nlinarith
    · nlinarith [mul_lt_mul_of_pos_right key hk]
  · intro h1 h2
    unfold segmentsEqual
    rw [if_neg (by rw [h1, h2]; simp), if_neg (by rw [h1]; simp),
      if_neg (by rw [h1]; simp)]
    rcases le_or_lt |(s1.p2.x - s1.p1.x) * (s2.p2.y - s2.p1.y) -
        (s1.p2.y - s1.p1.y) * (s2.p2.x - s2.p1.x)| EPSILON with hle | hgt
    · rw [if_neg (by simpa using not_lt.mpr hle)]
      simp [hle]
    · rw [if_pos (by simpa using hgt)]
      simp [not_le.mpr hgt]

/-- C5 witness: opposite-direction rays at a shared origin are unequal, and
a segment equals itself by unordered endpoints. -/
theorem segmentsEqual_spec_witness :
    segmentsEqual rayR ⟨⟨0, 0⟩, ⟨-1, 0⟩, some LineType.RAY⟩ = false ∧
    segmentsEqual segX ⟨⟨2, 2⟩, ⟨0, 0⟩, none⟩ = true := by
  constructor
  · exact (segmentsEqual_spec rayR ⟨⟨0, 0⟩, ⟨-1, 0⟩, some LineType.RAY⟩).2.2.2.1
      (by decide) (by decide) (-1) (by norm_num) (by decide) (by decide)
  · exact ((segmentsEqual_spec segX ⟨⟨2, 2⟩, ⟨0, 0⟩, none⟩).2.1
      (by decide) (by decide)).trans (by decide)

/-- `addPoint` only ever appends. -/
theorem addPoint_subset (acc : List Point) (x y : ℚ) (src : String) :
    acc ⊆ addPoint acc x y src := by
  unfold addPoint
  split
  · exact fun a ha => ha
  · split
    · exact fun a ha => ha
    · exact fun a ha => List.mem_append_left _ ha

/-- An in-bounds candidate is represented, up to `pointsEqual`, in the
result of `addPoint`: either a previously collected equal point or the
appended candidate itself. -/
theorem addPoint_exists (acc : List Point) (x y : ℚ) (src : String)
    (h : inGridBounds x y = true) :
    ∃ q ∈ addPoint acc x y src, pointsEqual q.xy ⟨x, y⟩ = true := by
  unfold addPoint
  rw [if_neg (by simp [h])]
  split
  · next hdup =>
    obtain ⟨q, hq, hpe⟩ := List.any_eq_true.mp hdup
    exact ⟨q, hq, hpe⟩
  · exact ⟨_, List.mem_append_right _ (List.mem_singleton.mpr rfl), pointsEqual_refl _⟩

/-- `addPoint` preserves pairwise epsilon-distinctness: a candidate equal to
a collected point is dropped, and an appended candidate is unequal to every
collected point. -/
theorem addPoint_pairwise (acc : List Point) (x y : ℚ) (src : String)
    (h : acc.Pairwise fun a b => pointsEqual a.xy b.xy = false) :
    (addPoint acc x y src).Pairwise fun a b => pointsEqual a.xy b.xy = false := by
  unfold addPoint
  split
  · exact h
  · split
    · exact h
    · next hdup =>
      rw [List.pairwise_append]
      refine ⟨h, List.pairwise_singleton _ _, ?_⟩
      intro a ha b hb
      rw [List.mem_singleton] at hb
      subst hb
      have := List.any_eq_false.mp (Bool.not_eq_true _ ▸ hdup) a ha
      simpa using this

/-- A fold whose step only ever appends only ever appends. -/
theorem foldl_subset {α : Type} (f : List Point → α → List Point)
    (hf : ∀ acc b, acc ⊆ f acc b) (l : List α) (acc : List Point) :
    acc ⊆ List.foldl f acc l := by
  induction l generalizing acc with
  | nil => exact fun a ha => ha
  | cons b l ih => exact fun a ha => ih (f acc b) (hf acc b ha)

/-- A property preserved by every step of a fold is preserved by the fold. -/
theorem foldl_preserves {α : Type} {P : List Point → Prop}
    (f : List Point → α → List Point) (hf : ∀ acc b, P acc → P (f acc b))
    (l : List α) (acc : List Point) (h : P acc) : P (List.foldl f acc l) := by
  induction l generalizing acc with
  | nil => exact h
  | cons b l ih => exact ih (f acc b) (hf acc b h)

/-- If the step at some listed element always yields a witness, and every
step only appends, the fold yields the witness. -/
theorem foldl_exists {α : Type} (f : List Point → α → List Point)
    (hsub : ∀ acc b, acc ⊆ f acc b) (l : List α) (b : α) (hb : b ∈ l)
    (Q : Point → Prop) (hstep : ∀ acc, ∃ q ∈ f acc b, Q q) (acc : List Point) :
    ∃ q ∈ List.foldl f acc l, Q q := by
  induction l generalizing acc with
  | nil => cases hb
  | cons c l ih =>
    rcases List.mem_cons.mp hb with rfl | hb2
    · obtain ⟨q, hq, hQ⟩ := hstep acc
      exact ⟨q, foldl_subset f hsub l (f acc b) hq, hQ⟩
    · exact ih hb2 (f acc c)

/-- The pairwise-intersection phase only ever appends. -/
theorem interPhase_subset (s : Segment) (rest : List Segment) (acc : List Point) :
    acc ⊆ interPhase s rest acc := by
  apply foldl_subset
  intro a b
  dsimp only
  split
  · exact addPoint_subset _ _ _ _
  · exact fun q hq => hq

/-- The vertical-gridline phase only ever appends. -/
theorem gridVPhase_subset (s : Segment) (acc : List Point) :
    acc ⊆ gridVPhase s acc := by
  apply foldl_subset
  intro a b
  dsimp only
  split
  · split
    · exact addPoint_subset _ _ _ _
    · exact fun q hq => hq
  · exact fun q hq => hq

/-- The horizontal-gridline phase only ever appends. -/
theorem gridHPhase_subset (s : Segment) (acc : List Point) :
    acc ⊆ gridHPhase s acc := by
  apply foldl_subset
  intro a b
  dsimp only
  split
  · split
    · exact addPoint_subset _ _ _ _
    · exact fun q hq => hq
  · exact fun q hq => hq

/-- The segment walk only ever appends. -/
theorem discoverLoop_subset (segs : List Segment) (acc : List Point) :
    acc ⊆ discoverLoop segs acc := by
  induction segs generalizing acc with
  | nil => exact fun a ha => ha
  | cons s rest ih =>
    intro a ha
    exact ih _ (gridHPhase_subset _ _ (gridVPhase_subset _ _ (interPhase_subset _ _ _ ha)))

/-- Pairwise epsilon-distinctness is preserved by the intersection phase. -/
theorem interPhase_pairwise (s : Segment) (rest : List Segment) (acc : List Point)
    (h : acc.Pairwise fun a b => pointsEqual a.xy b.xy = false) :
    (interPhase s rest acc).Pairwise fun a b => pointsEqual a.xy b.xy = false := by
  apply foldl_preserves _ _ _ _ h
  intro a b hP
  dsimp only
  split
  · exact addPoint_pairwise _ _ _ _ hP
  · exact hP

/-- Pairwise epsilon-distinctness is preserved by the vertical phase. -/
theorem gridVPhase_pairwise (s : Segment) (acc : List Point)
    (h : acc.Pairwise fun a b => pointsEqual a.xy b.xy = false) :
    (gridVPhase s acc).Pairwise fun a b => pointsEqual a.xy b.xy = false := by
  apply foldl_preserves _ _ _ _ h
  intro a b hP
  dsimp only
  split
  · split
    · exact addPoint_pairwise _ _ _ _ hP
    · exact hP
  · exact hP

/-- Pairwise epsilon-distinctness is preserved by the horizontal phase. -/
theorem gridHPhase_pairwise (s : Segment) (acc : List Point)
    (h : acc.Pairwise fun a b => pointsEqual a.xy b.xy = false) :
    (gridHPhase s acc).Pairwise fun a b => pointsEqual a.xy b.xy = false := by
  apply foldl_preserves _ _ _ _ h
  intro a b hP
  dsimp only
  split
  · split
    · exact addPoint_pairwise _ _ _ _ hP
    · exact hP
  · exact hP

/-- Pairwise epsilon-distinctness is preserved by the whole segment walk. -/
theorem discoverLoop_pairwise (segs : List Segment) (acc : List Point)
    (h : acc.Pairwise fun a b => pointsEqual a.xy b.xy = false) :
    (discoverLoop segs acc).Pairwise fun a b => pointsEqual a.xy b.xy = false := by
  induction segs generalizing acc with
  | nil => exact h
  | cons s rest ih =>
    exact ih _ (gridHPhase_pairwise _ _ (gridVPhase_pairwise _ _ (interPhase_pairwise _ _ _ h)))

/-- The grid seed is pairwise epsilon-distinct. -/
theorem gridSeed_pairwise :
    gridSeed.Pairwise fun a b => pointsEqual a.xy b.xy = false := by
  unfold gridSeed
  apply foldl_preserves
  · intro acc b hP
    apply foldl_preserves _ _ _ _ hP
    intro acc2 c hP2
    exact addPoint_pairwise _ _ _ _ hP2
  · exact List.Pairwise.nil

/-- Integer grid coordinates below the grid size pass the bounds test. -/
theorem inGridBounds_natCast (k l : ℕ) (hk : k < GRID_SIZE) (hl : l < GRID_SIZE) :
    inGridBounds (k : ℚ) (l : ℚ) = true := by
  unfold GRID_SIZE at hk hl
  have hk6 : (k : ℚ) ≤ 6 := by exact_mod_cast Nat.lt_succ_iff.mp hk
  have hl6 : (l : ℚ) ≤ 6 := by exact_mod_cast Nat.lt_succ_iff.mp hl
  have hk0 : (0 : ℚ) ≤ (k : ℚ) := Nat.cast_nonneg k
  have hl0 : (0 : ℚ) ≤ (l : ℚ) := Nat.cast_nonneg l
  unfold inGridBounds GRID_SIZE EPSILON
  simp only [Bool.not_eq_true', Bool.or_eq_false_iff, decide_eq_false_iff_not, not_lt]
  push_cast
  refine ⟨⟨⟨by linarith, by linarith⟩, by linarith⟩, by linarith⟩

set_option maxRecDepth 10000 in
/-- Every integer grid vertex is represented in the grid seed up to
`pointsEqual`. -/
theorem gridSeed_mem (k l : ℕ) (hk : k < GRID_SIZE) (hl : l < GRID_SIZE) :
    ∃ q ∈ gridSeed, pointsEqual q.xy ⟨(k : ℚ), (l : ℚ)⟩ = true := by
  unfold gridSeed
  apply foldl_exists _ ?hsub _ k (List.mem_range.mpr hk) _ ?hstep
  case hsub =>
    intro acc b
    apply foldl_subset
    intro acc2 c
    exact addPoint_subset _ _ _ _
  case hstep =>
    intro acc
    apply foldl_exists _ ?hsub2 _ l (List.mem_range.mpr hl) _ ?hstep2
    case hsub2 =>
      intro acc2 c
      exact addPoint_subset _ _ _ _
    case hstep2 =>
      intro acc2
      exact addPoint_exists _ _ _ _ (inGridBounds_natCast k l hk hl)

/-- The branch normal form of `getIntersection`, convenient for case
splitting: same function, lets inlined. -/
theorem getIntersection_eq (s1 s2 : Segment) :
    getIntersection s1 s2 =
      (if |interDenom s1 s2| < EPSILON then none
       else if (checkConstraint (interT s1 s2) s1.effType &&
            checkConstraint (interU s1 s2) s2.effType) = true then
         if inIntersectionRange (s1.p1.x + interT s1 s2 * (s1.p2.x - s1.p1.x))
             (s1.p1.y + interT s1 s2 * (s1.p2.y - s1.p1.y)) = true then
           some { x := s1.p1.x + interT s1 s2 * (s1.p2.x - s1.p1.x),
                  y := s1.p1.y + interT s1 s2 * (s1.p2.y - s1.p1.y),
                  id := "int-?", isIntersection := true }
         else none
       else none) := rfl

/-- A successful intersection lies inside the discoverability bounds. -/
theorem getIntersection_inGridBounds (s1 s2 : Segment) (c : Point)
    (h : getIntersection s1 s2 = some c) : inGridBounds c.x c.y = true := by
  rw [getIntersection_eq] at h
  split_ifs at h with h1 h2 h3
  · obtain rfl : _ = c := Option.some.inj h
    unfold inIntersectionRange at h3
    simp only [Bool.and_eq_true, decide_eq_true_eq, GRID_MIN, GRID_MAX] at h3
    obtain ⟨⟨hx1, hx2⟩, hy1, hy2⟩ := h3
    unfold inGridBounds GRID_SIZE
    simp only [Bool.not_eq_true', Bool.or_eq_false_iff, decide_eq_false_iff_not, not_lt]
    push_cast
    exact ⟨⟨⟨by linarith, by linarith⟩, by linarith⟩, by linarith⟩

/-- The intersection phase covers, up to `pointsEqual`, every intersection of
the head segment with a member of its suffix. -/
theorem interPhase_covers (s : Segment) (rest : List Segment) (s2 : Segment)
    (hs2 : s2 ∈ rest) (c : Point) (hc : getIntersection s s2 = some c)
    (acc : List Point) :
    ∃ q ∈ interPhase s rest acc, pointsEqual q.xy ⟨c.x, c.y⟩ = true := by
  apply foldl_exists _ ?hsub _ s2 hs2 _ ?hstep
  case hsub =>
    intro a b
    dsimp only
    split
    · exact addPoint_subset _ _ _ _
    · exact fun q hq => hq
  case hstep =>
    intro a
    dsimp only
    rw [hc]
    exact addPoint_exists _ _ _ _ (getIntersection_inGridBounds s s2 c hc)

/-- The segment walk covers every pairwise intersection: if `s` occurs
before `s2` in the segment list and they intersect, the output represents
the crossing up to `pointsEqual`. -/
theorem discoverLoop_covers_pair (pre : List Segment) (s : Segment)
    (mid : List Segment) (s2 : Segment) (post : List Segment) (c : Point)
    (hc : getIntersection s s2 = some c) :
    ∀ acc, ∃ q ∈ discoverLoop (pre ++ s :: (mid ++ s2 :: post)) acc,
      pointsEqual q.xy ⟨c.x, c.y⟩ = true := by
  induction pre with
  | nil =>
    intro acc
    rw [List.nil_append]
    simp only [discoverLoop]
    obtain ⟨q, hq, hQ⟩ := interPhase_covers s _ s2
      (List.mem_append_right _ (List.mem_cons_self _ _)) c hc acc
    exact ⟨q, discoverLoop_subset _ _
      (gridHPhase_subset _ _ (gridVPhase_subset _ _ hq)), hQ⟩
  | cons p pre ih =>
    intro acc
    rw [List.cons_append]
    simp only [discoverLoop]
    exact ih _

/-- The vertical phase covers, up to `pointsEqual`, every in-bounds valid
crossing of the segment with a vertical gridline. -/
theorem gridVPhase_covers (s : Segment) (k : ℕ) (hk : k < GRID_SIZE)
    (hdx : |s.p2.x - s.p1.x| > EPSILON)
    (hvalid : crossingValid s.effType (((k : ℚ) - s.p1.x) / (s.p2.x - s.p1.x)) = true)
    (hb : inGridBounds (k : ℚ)
      (s.p1.y + ((k : ℚ) - s.p1.x) / (s.p2.x - s.p1.x) * (s.p2.y - s.p1.y)) = true)
    (acc : List Point) :
    ∃ q ∈ gridVPhase s acc,
      pointsEqual q.xy ⟨(k : ℚ),
        s.p1.y + ((k : ℚ) - s.p1.x) / (s.p2.x - s.p1.x) * (s.p2.y - s.p1.y)⟩ = true := by
  unfold gridVPhase
  apply foldl_exists _ ?hsub _ k (List.mem_range.mpr hk) _ ?hstep
  case hsub =>
    intro a b
    dsimp only
    split
    all_goals try split
    all_goals first
      | exact addPoint_subset _ _ _ _
      | exact fun q hq => hq
  case hstep =>
    intro a
    dsimp only
    rw [if_pos hdx, if_pos hvalid]
    exact addPoint_exists _ _ _ _ hb

/-- The horizontal phase covers, up to `pointsEqual`, every in-bounds valid
crossing of the segment with a horizontal gridline. -/
theorem gridHPhase_covers (s : Segment) (k : ℕ) (hk : k < GRID_SIZE)
    (hdy : |s.p2.y - s.p1.y| > EPSILON)
    (hvalid : crossingValid s.effType (((k : ℚ) - s.p1.y) / (s.p2.y - s.p1.y)) = true)
    (hb : inGridBounds
      (s.p1.x + ((k : ℚ) - s.p1.y) / (s.p2.y - s.p1.y) * (s.p2.x - s.p1.x)) (k : ℚ) = true)
    (acc : List Point) :
    ∃ q ∈ gridHPhase s acc,
      pointsEqual q.xy ⟨s.p1.x + ((k : ℚ) - s.p1.y) / (s.p2.y - s.p1.y) * (s.p2.x - s.p1.x),
        (k : ℚ)⟩ = true := by
  unfold gridHPhase
  apply foldl_exists _ ?hsub _ k (List.mem_range.mpr hk) _ ?hstep
  case hsub =>
    intro a b
    dsimp only
    split
    all_goals try split
    all_goals first
      | exact addPoint_subset _ _ _ _
      | exact fun q hq => hq
  case hstep =>
    intro a
    dsimp only
    rw [if_pos hdy, if_pos hvalid]
    exact addPoint_exists _ _ _ _ hb

/-- The segment walk covers every in-bounds valid vertical-gridline crossing
of every listed segment. -/
theorem discoverLoop_covers_vcross (pre : List Segment) (s : Segment)
    (post : List Segment) (k : ℕ) (hk : k < GRID_SIZE)
    (hdx : |s.p2.x - s.p1.x| > EPSILON)
    (hvalid : crossingValid s.effType (((k : ℚ) - s.p1.x) / (s.p2.x - s.p1.x)) = true)
    (hb : inGridBounds (k : ℚ)
      (s.p1.y + ((k : ℚ) - s.p1.x) / (s.p2.x - s.p1.x) * (s.p2.y - s.p1.y)) = true) :
    ∀ acc, ∃ q ∈ discoverLoop (pre ++ s :: post) acc,
      pointsEqual q.xy ⟨(k : ℚ),
        s.p1.y + ((k : ℚ) - s.p1.x) / (s.p2.x - s.p1.x) * (s.p2.y - s.p1.y)⟩ = true := by
  induction pre with
  | nil =>
    intro acc
    rw [List.nil_append]
    simp only [discoverLoop]
    obtain ⟨q, hq, hQ⟩ := gridVPhase_covers s k hk hdx hvalid hb (interPhase s post acc)
    exact ⟨q, discoverLoop_subset _ _ (gridHPhase_subset _ _ hq), hQ⟩
  | cons p pre ih =>
    intro acc
    rw [List.cons_append]
    simp only [discoverLoop]
    exact ih _

/-- The segment walk covers every in-bounds valid horizontal-gridline
crossing of every listed segment. -/
theorem discoverLoop_covers_hcross (pre : List Segment) (s : Segment)
    (post : List Segment) (k : ℕ) (hk : k < GRID_SIZE)
    (hdy : |s.p2.y - s.p1.y| > EPSILON)
    (hvalid : crossingValid s.effType (((k : ℚ) - s.p1.y) / (s.p2.y - s.p1.y)) = true)
    (hb : inGridBounds
      (s.p1.x + ((k : ℚ) - s.p1.y) / (s.p2.y - s.p1.y) * (s.p2.x - s.p1.x)) (k : ℚ) = true) :
    ∀ acc, ∃ q ∈ discoverLoop (pre ++ s :: post) acc,
      pointsEqual q.xy ⟨s.p1.x + ((k : ℚ) - s.p1.y) / (s.p2.y - s.p1.y) * (s.p2.x - s.p1.x),
        (k : ℚ)⟩ = true := by
  induction pre with
  | nil =>
    intro acc
    rw [List.nil_append]
    simp only [discoverLoop]
    obtain ⟨q, hq, hQ⟩ := gridHPhase_covers s k hk hdy hvalid hb
      (gridVPhase s (interPhase s post acc))
    exact ⟨q, discoverLoop_subset _ _ hq, hQ⟩
  | cons p pre ih =>
    intro acc
    rw [List.cons_append]
    simp only [discoverLoop]
    exact ih _

/-- Intersections depend only on the geometric content of the segments. -/
theorem getIntersection_congr (a a' b b' : Segment)
    (ha : stripSeg a = stripSeg a') (hb : stripSeg b = stripSeg b') :
    getIntersection a b = getIntersection a' b' := by
  have ha1x : a.p1.x = a'.p1.x := congrArg (fun t => t.1.x) ha
  have ha1y : a.p1.y = a'.p1.y := congrArg (fun t => t.1.y) ha
  have ha2x : a.p2.x = a'.p2.x := congrArg (fun t => t.2.1.x) ha
  have ha2y : a.p2.y = a'.p2.y := congrArg (fun t => t.2.1.y) ha
  have hat : a.type = a'.type := congrArg (fun t => t.2.2) ha
  have hb1x : b.p1.x = b'.p1.x := congrArg (fun t => t.1.x) hb
  have hb1y : b.p1.y = b'.p1.y := congrArg (fun t => t.1.y) hb
  have hb2x : b.p2.x = b'.p2.x := congrArg (fun t => t.2.1.x) hb
  have hb2y : b.p2.y = b'.p2.y := congrArg (fun t => t.2.1.y) hb
  have hbt : b.type = b'.type := congrArg (fun t => t.2.2) hb
  unfold getIntersection Segment.effType
  rw [ha1x, ha1y, ha2x, ha2y, hat, hb1x, hb1y, hb2x, hb2y, hbt]

/-- The intersection phase depends only on the geometric content of the
head segment and its suffix. -/
theorem interPhase_congr (s s' : Segment) (hs : stripSeg s = stripSeg s')
    (rest rest' : List Segment)
    (h : List.Forall₂ (fun a b => stripSeg a = stripSeg b) rest rest') :
    ∀ acc, interPhase s rest acc = interPhase s' rest' acc := by
  induction h with
  | nil => intro acc; rfl
  | cons hab htail ih =>
    intro acc
    simp only [interPhase, List.foldl_cons] at *
    rw [getIntersection_congr s s' _ _ hs hab]
    exact ih _

/-- The vertical phase depends only on the geometric content of the
segment. -/
theorem gridVPhase_congr (s s' : Segment) (hs : stripSeg s = stripSeg s') :
    ∀ acc, gridVPhase s acc = gridVPhase s' acc := by
  have h1x : s.p1.x = s'.p1.x := congrArg (fun t => t.1.x) hs
  have h1y : s.p1.y = s'.p1.y := congrArg (fun t => t.1.y) hs
  have h2x : s.p2.x = s'.p2.x := congrArg (fun t => t.2.1.x) hs
  have h2y : s.p2.y = s'.p2.y := congrArg (fun t => t.2.1.y) hs
  have ht : s.type = s'.type := congrArg (fun t => t.2.2) hs
  intro acc
  unfold gridVPhase Segment.effType
  rw [h1x, h1y, h2x, h2y, ht]

/-- The horizontal phase depends only on the geometric content of the
segment. -/
theorem gridHPhase_congr (s s' : Segment) (hs : stripSeg s = stripSeg s') :
    ∀ acc, gridHPhase s acc = gridHPhase s' acc := by
  have h1x : s.p1.x = s'.p1.x := congrArg (fun t => t.1.x) hs
  have h1y : s.p1.y = s'.p1.y := congrArg (fun t => t.1.y) hs
  have h2x : s.p2.x = s'.p2.x := congrArg (fun t => t.2.1.x) hs
  have h2y : s.p2.y = s'.p2.y := congrArg (fun t => t.2.1.y) hs
  have ht : s.type = s'.type := congrArg (fun t => t.2.2) hs
  intro acc
  unfold gridHPhase Segment.effType
  rw [h1x, h1y, h2x, h2y, ht]

/-- The segment walk depends only on the geometric content of the
segments. -/
theorem discoverLoop_congr (segs segs' : List Segment)
    (h : List.Forall₂ (fun a b => stripSeg a = stripSeg b) segs segs') :
    ∀ acc, discoverLoop segs acc = discoverLoop segs' acc := by
  induction h with
  | nil => intro acc; rfl
  | cons hab htail ih =>
    intro acc
    simp only [discoverLoop]
    rw [interPhase_congr _ _ hab _ _ htail, gridVPhase_congr _ _ hab,
      gridHPhase_congr _ _ hab]
    exact ih _

/-- C6: the discoverable-point enumeration is a pure function of the
geometric content of the segments (ids do not matter); its output represents, up
to `pointsEqual`, every integer grid vertex, every pairwise intersection
over ordered line pairs, and every in-bounds valid gridline crossing; and
the output is deduplicated, no two returned points being `pointsEqual`. -/
theorem allDiscoverablePoints_spec (segs : List Segment) :
    (∀ segs', List.Forall₂ (fun a b => stripSeg a = stripSeg b) segs segs' →
      allDiscoverablePoints segs = allDiscoverablePoints segs') ∧
    (∀ k l : ℕ, k < GRID_SIZE → l < GRID_SIZE →
      ∃ q ∈ allDiscoverablePoints segs, pointsEqual q.xy ⟨(k : ℚ), (l : ℚ)⟩ = true) ∧
    (∀ (pre : List Segment) (s : Segment) (mid : List Segment) (s2 : Segment)
        (post : List Segment) (c : Point),
      segs = pre ++ s :: (mid ++ s2 :: post) → getIntersection s s2 = some c →
      ∃ q ∈ allDiscoverablePoints segs, pointsEqual q.xy ⟨c.x, c.y⟩ = true) ∧
    (∀ (pre : List Segment) (s : Segment) (post : List Segment) (k : ℕ),
      segs = pre ++ s :: post → k < GRID_SIZE →
      |s.p2.x - s.p1.x| > EPSILON →
      crossingValid s.effType (((k : ℚ) - s.p1.x) / (s.p2.x - s.p1.x)) = true →
      inGridBounds (k : ℚ)
        (s.p1.y + ((k : ℚ) - s.p1.x) / (s.p2.x - s.p1.x) * (s.p2.y - s.p1.y)) = true →
      ∃ q ∈ allDiscoverablePoints segs,
        pointsEqual q.xy ⟨(k : ℚ),
          s.p1.y + ((k : ℚ) - s.p1.x) / (s.p2.x - s.p1.x) * (s.p2.y - s.p1.y)⟩ = true) ∧
    (∀ (pre : List Segment) (s : Segment) (post : List Segment) (k : ℕ),
      segs = pre ++ s :: post → k < GRID_SIZE →
      |s.p2.y - s.p1.y| > EPSILON →
      crossingValid s.effType (((k : ℚ) - s.p1.y) / (s.p2.y - s.p1.y)) = true →
      inGridBounds
        (s.p1.x + ((k : ℚ) - s.p1.y) / (s.p2.y - s.p1.y) * (s.p2.x - s.p1.x)) (k : ℚ) = true →
      ∃ q ∈ allDiscoverablePoints segs,
        pointsEqual q.xy ⟨s.p1.x + ((k : ℚ) - s.p1.y) / (s.p2.y - s.p1.y) * (s.p2.x - s.p1.x),
          (k : ℚ)⟩ = true) ∧
    (allDiscoverablePoints segs).Pairwise fun a b => pointsEqual a.xy b.xy = false := by
  refine ⟨?_, ?_, ?_, ?_, ?_, ?_⟩
  · intro segs' h
    exact discoverLoop_congr segs segs' h gridSeed
  · intro k l hk hl
    obtain ⟨q, hq, hQ⟩ := gridSeed_mem k l hk hl
    exact ⟨q, discoverLoop_subset segs gridSeed hq, hQ⟩
  · intro pre s mid s2 post c hdecomp hc
    subst hdecomp
    exact discoverLoop_covers_pair pre s mid s2 post c hc gridSeed
  · intro pre s post k hdecomp hk hdx hvalid hb
    subst hdecomp
    exact discoverLoop_covers_vcross pre s post k hk hdx hvalid hb gridSeed
  · intro pre s post k hdecomp hk hdy hvalid hb
    subst hdecomp
    exact discoverLoop_covers_hcross pre s post k hk hdy hvalid hb gridSeed
  · exact discoverLoop_pairwise segs gridSeed gridSeed_pairwise

set_option maxRecDepth 10000 in
/-- C6 witness: for the two crossing diagonals, the enumeration represents
the grid vertex (3,4) and the crossing (1,1). -/
theorem allDiscoverablePoints_spec_witness :
    (∃ q ∈ allDiscoverablePoints [segX, segY], pointsEqual q.xy ⟨3, 4⟩ = true) ∧
    (∃ q ∈ allDiscoverablePoints [segX, segY], pointsEqual q.xy ⟨1, 1⟩ = true) := by
  constructor
  · have h := (allDiscoverablePoints_spec [segX, segY]).2.1 3 4
      (by norm_num [GRID_SIZE]) (by norm_num [GRID_SIZE])
    simpa using h
  · have hc : getIntersection segX segY = some ⟨1, 1, "int-?", true, false, none⟩ := by
      decide
    have h := (allDiscoverablePoints_spec [segX, segY]).2.2.1 [] segX [] segY []
      ⟨1, 1, "int-?", true, false, none⟩ rfl hc
    simpa using h

/-- The goal-evaluation effect does not affect non-degeneracy. -/
theorem stateNondegen_evalGoal (G : GoalSpec) (s : AppState) :
    stateNondegen (evalGoal G s) = stateNondegen s := by
  unfold stateNondegen
  rw [evalGoal_history, evalGoal_segments]

/-- The snapshot read under any cursor position of an all-non-degenerate
history is non-degenerate. -/
theorem history_all_getD (l : List HistoryState) (n : ℕ)
    (h : l.all snapshotNondegen = true) :
    ((l.getD n ⟨[], []⟩).segments).all segNondegen = true := by
  rw [List.getD_eq_getElem?_getD]
  cases hg : l[n]? with
  | none => rfl
  | some v =>
    have hv : v ∈ l := List.getElem?_mem hg
    simpa [snapshotNondegen] using List.all_eq_true.mp h v hv

/-- Truncation preserves an `all` predicate. -/
theorem all_take {α : Type} (p : α → Bool) (l : List α) (n : ℕ)
    (h : l.all p = true) : (l.take n).all p = true := by
  rw [List.all_eq_true] at *
  intro x hx
  exact h x (List.mem_of_mem_take hx)

/-- The mapped initial segments of a level are non-degenerate when the raw
initial segments of the level are. -/
theorem initSegments_nondegen (raw : List RawSegment)
    (h : raw.all (fun sg => !pointsEqual sg.p1 sg.p2) = true) :
    (initSegments raw).all segNondegen = true := by
  rw [List.all_eq_true]
  intro x hx
  rw [initSegments, List.mem_mapIdx] at hx
  obtain ⟨i, hi, rfl⟩ := hx
  have := List.all_eq_true.mp h raw[i] (List.getElem_mem hi)
  simpa [segNondegen, pointsEqual, Point.xy] using this

/-- C10: when the initial segments of the level are non-degenerate (as every
editor-authored level is, since the editor rejects a draw whose snapped
endpoints coincide), every reachable state has only non-degenerate segments
in every committed snapshot and in the exposed list: the play screen rejects
a draw whose two snapped endpoints are epsilon-equal and commits nothing. -/
theorem no_zero_length_segments (L : LevelConfig)
    (hinit : (L.initial.segments.getD []).all
      (fun sg => !pointsEqual sg.p1 sg.p2) = true)
    (s : AppState) (h : UIReachable L s) : stateNondegen s = true := by
  have hreset : stateNondegen (resetState L) = true := by
    rw [resetState, stateNondegen_evalGoal]
    unfold stateNondegen initialSnapshot
    simp only [List.all_cons, List.all_nil, Bool.and_true, snapshotNondegen]
    rw [initSegments_nondegen _ hinit]
    rfl
  induction h with
  | init => exact hreset
  | step hreach hstep ih =>
    cases hstep with
    | drawLine startP endP idS idE idSeg hcl hstart hend hne hdup =>
      rw [commitOp, stateNondegen_evalGoal]
      unfold stateNondegen commitRaw at *
      simp only [Bool.and_eq_true] at ih ⊢
      obtain ⟨hh, hs⟩ := ih
      constructor
      · rw [List.all_append, Bool.and_eq_true]
        refine ⟨all_take _ _ _ hh, ?_⟩
        simp only [List.all_cons, List.all_nil, Bool.and_true, snapshotNondegen]
        rw [List.all_append, Bool.and_eq_true]
        refine ⟨hs, ?_⟩
        simp only [List.all_cons, List.all_nil, Bool.and_true, segNondegen,
          Bool.not_eq_true']
        exact hne
      · rw [List.all_append, Bool.and_eq_true]
        refine ⟨hs, ?_⟩
        simp only [List.all_cons, List.all_nil, Bool.and_true, segNondegen,
          Bool.not_eq_true']
        exact hne
    | revealPoint p idP hcl hp hnew =>
      rw [commitOp, stateNondegen_evalGoal]
      unfold stateNondegen commitRaw at *
      simp only [Bool.and_eq_true] at ih ⊢
      obtain ⟨hh, hs⟩ := ih
      refine ⟨?_, hs⟩
      rw [List.all_append, Bool.and_eq_true]
      refine ⟨all_take _ _ _ hh, ?_⟩
      simpa [snapshotNondegen] using hs
    | undo =>
      rw [undoOp, stateNondegen_evalGoal]
      unfold stateNondegen undoRaw at *
      simp only [Bool.and_eq_true] at ih ⊢
      obtain ⟨hh, hs⟩ := ih
      split
      · exact ⟨hh, history_all_getD _ _ hh⟩
      · exact ⟨hh, hs⟩
    | redo =>
      rw [redoOp, stateNondegen_evalGoal]
      unfold stateNondegen redoRaw at *
      simp only [Bool.and_eq_true] at ih ⊢
      obtain ⟨hh, hs⟩ := ih
      split
      · exact ⟨hh, history_all_getD _ _ hh⟩
      · exact ⟨hh, hs⟩
    | reset => exact hreset

set_option maxRecDepth 10000 in
/-- C10 witness: on the one-initial-segment level, resetting and drawing a
segment between the grid vertices (0,0) and (2,0) keeps every snapshot free
of zero-length segments. -/
theorem no_zero_length_segments_witness : stateNondegen c10State = true := by
  have hr : UIReachable segLevel c10State :=
    UIReachable.step UIReachable.init
      (UIStep.drawLine _ ⟨0, 0, "potential-grid-0", true, false, none⟩
        ⟨2, 0, "potential-grid-14", true, false, none⟩ "rs" "re" "rseg"
        (by decide) (Or.inr (by decide)) (Or.inr (by decide)) (by decide) (by decide))
  exact no_zero_length_segments segLevel (by decide) c10State hr

end GeoGrid
